import Mathlib

/-!
Verification of the sandboxed execution service (runner + chat Kafka client).

This file shallowly embeds the Python sources of the repository:

* `src/runner/src/container_pool.py` — the worker pool (`ContainerPool`):
  slot records, `acquire`, `release`, `execute_code`, `get_stats`, the
  execution history buffer and the event stream emitted to observers;
* `src/runner/src/static_check.py` — the AST static screener
  (`ast_static_check`);
* `src/runner/src/server.py` — the `POST /run-code` endpoint mapping
  (`run_code_executor`);
* `src/runner/src/kafka_consumer.py` — the queue consumer loop
  (`_consume_requests`) together with its per-direction Fernet key
  derivation (`_derive_fernet_key`);
* `src/chat/app/utils/kafka_client.py` — the chat-side encrypt/decrypt pair.

Modelling conventions: wall-clock instants are natural numbers (the code
uses `time.time()` only to take differences, here `duration = end - start`);
Python dictionaries with a known key universe become records of `Option`
fields (a `none` field is an absent key); fallible library calls
(`ast.parse`, Fernet decryption, JSON parsing, the HTTP round trip to a
worker) are oracle inputs describing the one outcome the surrounding code
observes.  State mutation becomes explicit state passing.
-/

/-! ## Data model of the pool (`container_pool.py`, dataclasses) -/

/-- Embeds the dataclass `ExecutionInfo` of `container_pool.py`. -/
structure ExecutionInfo where
  execution_id : String
  user_id : String
  code : String
  worker_name : String
  start_time : Nat
  end_time : Option Nat
  duration_ms : Option Nat
  success : Bool
  return_code : Option Int
deriving DecidableEq, Repr

/-- Embeds the dataclass `WorkerContainer` of `container_pool.py`; the
Docker container handle is represented by its observable `name`. -/
structure WorkerContainer where
  name : String
  port : Nat
  container_ip : String
  busy : Bool
  last_used : Nat
  current_execution : Option ExecutionInfo
  exec_start_time : Option Nat
deriving DecidableEq, Repr

/-- The four process-lifetime counters of `ContainerPool.stats`. -/
structure Stats where
  total_executions : Nat
  total_exec_time_ms : Nat
  total_lines : Nat
  success_count : Nat
deriving DecidableEq, Repr

/-- One row of the `workers` list inside a `pool_status` event
(`ContainerPool._emit_pool_status`). -/
structure WorkerStatusEntry where
  name : String
  port : Nat
  busy : Bool
  healthy : Bool
  exec_start : Option Nat
  current_user : Option String
deriving DecidableEq, Repr

/-- The event dictionaries emitted through `ContainerPool._emit_event`. -/
inductive PoolEvent where
  | execution_start (execution_id user_id code worker : String)
  | execution_end (execution_id : String) (duration : Nat) (success : Bool)
  | pool_status (workers : List WorkerStatusEntry)
deriving DecidableEq, Repr

/-- The mutable state of a `ContainerPool` instance that the claims are
about: the slot list, the recent-history buffer with its capacity, the
statistics counters, and the log of events emitted so far. -/
structure PoolState where
  workers : List WorkerContainer
  execution_history : List ExecutionInfo
  max_history : Nat
  stats : Stats
  events : List PoolEvent
deriving DecidableEq, Repr

/-- A Python result dictionary as returned by `ContainerPool.execute_code`,
the worker executor, and the Kafka consumer: the universe of keys that ever
appear, each `Option`al (absent key = `none`).  The `request_id` field holds
an `Option (Option String)`: the outer layer is key presence, the inner one
distinguishes a `None` value from a string. -/
structure ResultDict where
  stdout : Option String
  stderr : Option String
  return_code : Option Int
  error : Option String
  details : Option (List String)
  status_code : Option Nat
  request_id : Option (Option String)
deriving DecidableEq, Repr

/-- A result dictionary with no keys set. -/
def emptyResult : ResultDict := ⟨none, none, none, none, none, none, none⟩

/-- The dictionary literal `{"error": msg, "status_code": status}` used
throughout `container_pool.py` and `kafka_consumer.py`. -/
def errorResult (msg : String) (status : Nat) : ResultDict :=
  ⟨none, none, none, some msg, none, some status, none⟩

/-! ## acquire / release (`container_pool.py` lines 357-377) -/

/-- The slot-field updates performed by `ContainerPool.acquire` on the first
idle worker: `busy = True`, `last_used = time.time()`,
`exec_start_time = time.time()`. -/
def markBusy (w : WorkerContainer) (now : Nat) : WorkerContainer :=
  { w with busy := true, last_used := now, exec_start_time := some now }

/-- The scan of `ContainerPool.acquire` (performed under `self._lock`):
walk `self.workers` in order, mark the first worker with `busy == False`
and return it.  The result carries the position of the acquired slot, the
updated worker record, and the updated slot list; `none` is the
no-available-workers case. -/
def acquireList : List WorkerContainer → Nat →
    Option (Nat × WorkerContainer × List WorkerContainer)
  | [], _ => none
  | w :: rest, now =>
    if w.busy then
      match acquireList rest now with
      | none => none
      | some (i, aw, rest2) => some (i + 1, aw, w :: rest2)
    else
      some (0, markBusy w now, markBusy w now :: rest)

/-- The slot-field updates performed by `ContainerPool.release`:
`busy = False`, `current_execution = None`, `exec_start_time = None`. -/
def clearWorker (w : WorkerContainer) : WorkerContainer :=
  { w with busy := false, current_execution := none, exec_start_time := none }

/-- `ContainerPool.release` applied to the worker at position `i` of the
slot list (performed under `self._lock`). -/
def releaseList : List WorkerContainer → Nat → List WorkerContainer
  | [], _ => []
  | w :: rest, 0 => clearWorker w :: rest
  | w :: rest, i + 1 => w :: releaseList rest i

/-- The number of slots whose `busy` flag is set. -/
def busyCount (ws : List WorkerContainer) : Nat := ws.countP (fun w => w.busy)

theorem acquireList_spec (ws : List WorkerContainer) (now : Nat) (i : Nat)
    (aw : WorkerContainer) (ws2 : List WorkerContainer)
    (h : acquireList ws now = some (i, aw, ws2)) :
    (∃ w0, ws[i]? = some w0 ∧ w0.busy = false ∧ aw = markBusy w0 now) ∧
    ws2[i]? = some aw ∧ aw.busy = true ∧
    (∀ j, j ≠ i → ws2[j]? = ws[j]?) ∧
    busyCount ws2 = busyCount ws + 1 ∧ ws2.length = ws.length := by
  induction ws generalizing i aw ws2 with
  | nil => simp [acquireList] at h
  | cons w rest ih =>
    by_cases hb : w.busy
    · simp only [acquireList, hb, if_true] at h
      cases hrec : acquireList rest now with
      | none => rw [hrec] at h; simp at h
      | some v =>
        obtain ⟨i', aw', rest2⟩ := v
        rw [hrec] at h
        simp only [Option.some.injEq, Prod.mk.injEq] at h
        obtain ⟨hi, haw, hws2⟩ := h
        obtain ⟨⟨w0, hg, hb0, hmk⟩, hg2, hbt, hother, hcount, hlen⟩ :=
          ih i' aw' rest2 hrec
        subst hi; subst haw; subst hws2
        refine ⟨⟨w0, ?_, hb0, hmk⟩, ?_, hbt, ?_, ?_, ?_⟩
        · simpa using hg
        · simpa using hg2
        · intro j hj
          cases j with
          | zero => simp
          | succ j' =>
            have : j' ≠ i' := by omega
            simpa using hother j' this
        · simp [busyCount, hb] at hcount ⊢; omega
        · simp [hlen]
    · simp [acquireList, hb] at h
      obtain ⟨hi, haw, hws2⟩ := h
      subst hi; subst haw; subst hws2
      refine ⟨⟨w, by simp, by simpa using hb, rfl⟩, by simp, by simp [markBusy], ?_, ?_, by simp⟩
      · intro j hj
        cases j with
        | zero => omega
        | succ j' => simp
      · simp [busyCount, markBusy, hb]

theorem releaseList_get_self (ws : List WorkerContainer) (i : Nat) (w : WorkerContainer)
    (h : ws[i]? = some w) :
    (releaseList ws i)[i]? = some (clearWorker w) := by
  induction ws generalizing i with
  | nil => simp at h
  | cons x rest ih =>
    cases i with
    | zero => simp at h; simp [releaseList, h]
    | succ i' =>
      simp at h
      simpa [releaseList] using ih i' h

theorem releaseList_get_other (ws : List WorkerContainer) (i j : Nat) (hj : j ≠ i) :
    (releaseList ws i)[j]? = ws[j]? := by
  induction ws generalizing i j with
  | nil => simp [releaseList]
  | cons x rest ih =>
    cases i with
    | zero =>
      cases j with
      | zero => omega
      | succ j' => simp [releaseList]
    | succ i' =>
      cases j with
      | zero => simp [releaseList]
      | succ j' =>
        have : j' ≠ i' := by omega
        simpa [releaseList] using ih i' j' this

theorem releaseList_busyCount (ws : List WorkerContainer) (i : Nat) (w : WorkerContainer)
    (h : ws[i]? = some w) (hb : w.busy = true) :
    busyCount (releaseList ws i) + 1 = busyCount ws := by
  induction ws generalizing i with
  | nil => simp at h
  | cons x rest ih =>
    cases i with
    | zero =>
      simp at h
      subst h
      simp [releaseList, busyCount, clearWorker, hb]
    | succ i' =>
      simp at h
      have := ih i' h
      by_cases hx : x.busy <;> simp [releaseList, busyCount, hx] at this ⊢ <;> omega

/-! ## The concurrency model for the pool invariant (claim C1)

`acquire` and `release` are the only operations that touch a slot's `busy`
flag, and both run under the single `self._lock` of the pool, so any
interleaving of concurrent `acquire` / `release` / `execute_code` calls is
a sequence of atomic `acquire` and `release` steps (`execute_code`
contributes exactly one `acquire` and, when that succeeds, exactly one
later `release` of the acquired slot). -/

/-- A snapshot of the shared slot list together with the set of executions
currently between their `acquire` and their `release`, identified by the
slot position each one holds. -/
structure SysState where
  workers : List WorkerContainer
  inFlight : List Nat
deriving DecidableEq, Repr

/-- One atomic step of the pool: a successful `acquire` (the caller's
execution becomes in-flight on the returned slot), a failed `acquire`
(no state change; the caller gets the no-capacity answer), or the
`release` issued by an in-flight execution on the slot it holds. -/
inductive PoolStep : SysState → SysState → Prop
  | acquireOk (s : SysState) (now i : Nat) (aw : WorkerContainer)
      (ws2 : List WorkerContainer)
      (h : acquireList s.workers now = some (i, aw, ws2)) :
      PoolStep s ⟨ws2, i :: s.inFlight⟩
  | acquireFull (s : SysState) (now : Nat)
      (h : acquireList s.workers now = none) :
      PoolStep s s
  | releaseStep (s : SysState) (i : Nat) (h : i ∈ s.inFlight) :
      PoolStep s ⟨releaseList s.workers i, s.inFlight.erase i⟩

/-- States reachable from a freshly initialized pool (all slots idle, no
execution in flight) under any interleaving of pool steps. -/
inductive ReachableState : SysState → Prop
  | init (ws : List WorkerContainer) (h : ∀ w ∈ ws, w.busy = false) :
      ReachableState ⟨ws, []⟩
  | step (s s2 : SysState) (hr : ReachableState s) (hs : PoolStep s s2) :
      ReachableState s2

/-- The inductive invariant for claim C1: the in-flight executions hold
pairwise distinct slots, every held slot is busy, and the number of busy
slots equals the number of in-flight executions. -/
def PoolInv (s : SysState) : Prop :=
  busyCount s.workers = s.inFlight.length ∧ s.inFlight.Nodup ∧
  ∀ i ∈ s.inFlight, ∃ w, s.workers[i]? = some w ∧ w.busy = true

theorem poolInv_init (ws : List WorkerContainer) (h : ∀ w ∈ ws, w.busy = false) :
    PoolInv ⟨ws, []⟩ := by
  refine ⟨?_, by simp, by simp⟩
  simp only [busyCount, List.length_nil]
  exact List.countP_eq_zero.2 (by intro w hw; simp [h w hw])

theorem poolInv_step (s s2 : SysState) (hstep : PoolStep s s2) (hinv : PoolInv s) :
    PoolInv s2 := by
  obtain ⟨hcount, hnodup, hheld⟩ := hinv
  cases hstep with
  | acquireOk now i aw ws2 h =>
    obtain ⟨⟨w0, hw0, hw0idle, _⟩, hgot, hbusy, hother, hplus, _⟩ :=
      acquireList_spec s.workers now i aw ws2 h
    have hfresh : i ∉ s.inFlight := by
      intro hmem
      obtain ⟨w, hw, hwb⟩ := hheld i hmem
      rw [hw0] at hw
      cases hw
      rw [hw0idle] at hwb
      cases hwb
    refine ⟨?_, ?_, ?_⟩
    · simp [hplus, hcount]
    · exact List.nodup_cons.2 ⟨hfresh, hnodup⟩
    · intro j hj
      rcases List.mem_cons.1 hj with hji | hjm
      · subst hji; exact ⟨aw, hgot, hbusy⟩
      · obtain ⟨w, hw, hwb⟩ := hheld j hjm
        have : j ≠ i := fun he => hfresh (he ▸ hjm)
        exact ⟨w, (hother j this).trans hw, hwb⟩
  | acquireFull now h =>
    exact ⟨hcount, hnodup, hheld⟩
  | releaseStep i h =>
    obtain ⟨w, hw, hwb⟩ := hheld i h
    refine ⟨?_, hnodup.erase i, ?_⟩
    · show busyCount (releaseList s.workers i) = (s.inFlight.erase i).length
      have hdec := releaseList_busyCount s.workers i w hw hwb
      have hlen := List.length_erase_of_mem h
      omega
    · intro j hj
      have hne : j ≠ i := (List.Nodup.mem_erase_iff hnodup).1 hj |>.1
      have hjm : j ∈ s.inFlight := (List.Nodup.mem_erase_iff hnodup).1 hj |>.2
      obtain ⟨wj, hwj, hwjb⟩ := hheld j hjm
      exact ⟨wj, (releaseList_get_other s.workers i j hne).trans hwj, hwjb⟩

theorem poolInv_reachable (s : SysState) (h : ReachableState s) : PoolInv s := by
  induction h with
  | init ws hws => exact poolInv_init ws hws
  | step s s2 hr hs ih => exact poolInv_step s s2 hs ih

/-! ## execute_code (`container_pool.py` lines 379-474) -/

/-- The one outcome of the HTTP round trip
`self._http_client.post(worker.url + "/execute", json={"code":…,"timeout":…},
timeout=timeout + 5)` followed by `response.json()` that the surrounding
`try` block observes. -/
inductive WorkerInteraction where
  | response (status : Nat) (body : ResultDict)
  | jsonFailure (msg : String)
  | timeoutExc
  | networkExc (msg : String)
deriving DecidableEq, Repr

/-- The `(success, result)` normalization of `execute_code` (lines 421-441):
HTTP 200 is the success outcome with the worker body as result; HTTP 408 is
replaced by the timed-out dictionary; any other status keeps the body's
error message with that status; `httpx.TimeoutException` maps to the
timed-out dictionary; every other exception (including an unparseable
response body) maps to its message with status 500. -/
def normalizeOutcome (net : WorkerInteraction) : Bool × ResultDict :=
  match net with
  | .response 200 body => (true, body)
  | .response 408 _ => (false, errorResult "execution timed out" 408)
  | .response st body => (false, errorResult (body.error.getD "unknown error") st)
  | .jsonFailure msg => (false, errorResult msg 500)
  | .timeoutExc => (false, errorResult "execution timed out" 408)
  | .networkExc msg => (false, errorResult msg 500)

/-- Python `len(code.split("\n"))` from the statistics update of
`execute_code` (line 453): splitting on a one-character separator yields
one more piece than there are separator occurrences. -/
def pyLineCount (code : String) : Nat :=
  1 + code.data.countP (fun c => c = Char.ofNat 10)

/-- One row of `_emit_pool_status` for one worker (lines 476-489);
`healthy` is hard-coded `True` there. -/
def workerStatusEntry (w : WorkerContainer) : WorkerStatusEntry :=
  { name := w.name, port := w.port, busy := w.busy, healthy := true,
    exec_start := w.exec_start_time,
    current_user := w.current_execution.map (fun e => e.user_id) }

/-- `ContainerPool._emit_pool_status`: append a `pool_status` event built
from the current slot list to the event log. -/
def emitPoolStatus (p : PoolState) : PoolState :=
  { p with events := p.events ++ [PoolEvent.pool_status (p.workers.map workerStatusEntry)] }

set_option linter.unusedVariables false in
/-- `ContainerPool.execute_code` (lines 379-474).  Inputs beyond the code,
timeout and user id are the oracle values the Python code draws from its
environment: the generated execution id (`str(uuid.uuid4())[:8]`), the two
clock readings `time.time()` bracketing the round trip, and the observed
outcome `net` of the HTTP round trip.  Returns the updated pool state
(slot list, statistics, history, event log) plus the result dictionary.
The `timeout` argument reaches the worker only through the HTTP round trip
(request body `{"code": code, "timeout": timeout}`, client budget
`timeout + 5`), which the oracle `net` abstracts; it is therefore unused in
the state transformation itself. -/
def executeCode (p : PoolState) (code : String) (timeout : Nat) (user_id : String)
    (eid : String) (tStart tEnd : Nat) (net : WorkerInteraction) :
    PoolState × ResultDict :=
  match acquireList p.workers tStart with
  | none => (p, errorResult "no available workers" 503)
  | some (i, w, ws1) =>
    let execution : ExecutionInfo :=
      { execution_id := eid, user_id := user_id, code := code,
        worker_name := w.name, start_time := tStart,
        end_time := none, duration_ms := none, success := false,
        return_code := none }
    let ws2 := ws1.set i { w with current_execution := some execution }
    let p2 := emitPoolStatus
      { p with
        workers := ws2,
        events := p.events ++
          [PoolEvent.execution_start eid user_id code w.name] }
    let sr := normalizeOutcome net
    let duration := tEnd - tStart
    let finalExec :=
      { execution with
        end_time := some tEnd,
        duration_ms := some duration,
        success := sr.1 }
    let ws3 := ws2.set i { w with current_execution := some finalExec }
    let stats2 : Stats :=
      { total_executions := p.stats.total_executions + 1,
        total_exec_time_ms := p.stats.total_exec_time_ms + duration,
        total_lines := p.stats.total_lines + pyLineCount code,
        success_count := p.stats.success_count + (if sr.1 then 1 else 0) }
    let hist := p.execution_history ++ [finalExec]
    let hist2 := if hist.length > p.max_history then hist.drop 1 else hist
    let p3 := emitPoolStatus
      { p2 with
        workers := releaseList ws3 i,
        stats := stats2,
        execution_history := hist2,
        events := p2.events ++ [PoolEvent.execution_end eid duration sr.1] }
    (p3, sr.2)

/-! ## get_stats (`container_pool.py` lines 536-552) -/

/-- The dictionary returned by `ContainerPool.get_stats`: the four raw
counters spread in, plus the three derived fields.  Python's true division
of non-negative integers is modelled on `ℚ`. -/
structure StatsView where
  total_executions : Nat
  total_exec_time_ms : Nat
  total_lines : Nat
  success_count : Nat
  avg_exec_time_ms : ℚ
  avg_lines : ℚ
  success_rate : ℚ
deriving DecidableEq, Repr

/-- `ContainerPool.get_stats`: each derived field is the guarded division
`x / total if total > 0 else 0` of the source. -/
def get_stats (s : Stats) : StatsView :=
  { total_executions := s.total_executions,
    total_exec_time_ms := s.total_exec_time_ms,
    total_lines := s.total_lines,
    success_count := s.success_count,
    avg_exec_time_ms :=
      if s.total_executions > 0 then
        (s.total_exec_time_ms : ℚ) / (s.total_executions : ℚ)
      else 0,
    avg_lines :=
      if s.total_executions > 0 then
        (s.total_lines : ℚ) / (s.total_executions : ℚ)
      else 0,
    success_rate :=
      if s.total_executions > 0 then
        (s.success_count : ℚ) / (s.total_executions : ℚ) * 100
      else 0 }


/-! ## The static screener (`static_check.py`)

The Python `ast` node shapes that `ast_static_check` inspects are embedded
as `PyNode`, with constructor names mirroring the `ast` classes; every
other node kind (expression statements, operators, literals, and also the
inert `ast.alias` / `ast.withitem` wrappers) is `Other`, carrying only its
child nodes, which is all `ast.walk` uses of it.  `ast.parse` is a library
call; its outcome is the `Option PyNode` input of the screener (`none`
means the code raised `SyntaxError`). -/

/-- A Python abstract-syntax-tree node. -/
inductive PyNode where
  | Import (names : List String)
  | ImportFrom (module : Option String)
  | Call (func : PyNode) (args : List PyNode)
  | Attribute (value : PyNode) (attr : String)
  | Name (id : String)
  | With (children : List PyNode)
  | Module (body : List PyNode)
  | Other (children : List PyNode)

/-- `ast.iter_child_nodes`, specialized to the embedded node shapes. -/
def PyNode.children : PyNode → List PyNode
  | .Import _ => []
  | .ImportFrom _ => []
  | .Call f args => f :: args
  | .Attribute v _ => [v]
  | .Name _ => []
  | .With cs => cs
  | .Module body => body
  | .Other cs => cs

mutual

/-- Number of embedded nodes in a tree (termination measure of the walk). -/
def PyNode.size : PyNode → Nat
  | .Import _ => 1
  | .ImportFrom _ => 1
  | .Call f args => 1 + f.size + PyNode.sizeList args
  | .Attribute v _ => 1 + v.size
  | .Name _ => 1
  | .With cs => 1 + PyNode.sizeList cs
  | .Module body => 1 + PyNode.sizeList body
  | .Other cs => 1 + PyNode.sizeList cs

/-- Combined size of a list of trees. -/
def PyNode.sizeList : List PyNode → Nat
  | [] => 0
  | x :: xs => x.size + PyNode.sizeList xs

end

/-- Combined size of a queue of nodes. -/
def queueWeight (q : List PyNode) : Nat := PyNode.sizeList q

theorem queueWeight_append (a b : List PyNode) :
    queueWeight (a ++ b) = queueWeight a + queueWeight b := by
  induction a with
  | nil => simp [queueWeight, PyNode.sizeList]
  | cons x xs ih => simp [queueWeight, PyNode.sizeList] at ih ⊢; omega

theorem size_pos (n : PyNode) : 0 < n.size := by
  cases n <;> simp [PyNode.size]

theorem childrenWeight_lt (n : PyNode) : queueWeight n.children < n.size := by
  cases n <;> simp [PyNode.children, queueWeight, PyNode.size, PyNode.sizeList]

theorem queueWeight_step (n : PyNode) (queue : List PyNode) :
    queueWeight (queue ++ n.children) < queueWeight (n :: queue) := by
  have h1 := childrenWeight_lt n
  have h2 := queueWeight_append queue n.children
  simp [queueWeight, PyNode.sizeList] at h1 h2 ⊢
  omega

/-- The queue loop of `ast.walk`: pop the front node, push its children at
the back, yield the popped node (breadth-first order, as in the `deque`
implementation of `ast.walk`). -/
def walkAux : List PyNode → List PyNode
  | [] => []
  | n :: queue => n :: walkAux (queue ++ n.children)
termination_by q => queueWeight q
decreasing_by
  apply queueWeight_step

/-- `ast.walk(tree)` as used by `ast_static_check`. -/
def walk (root : PyNode) : List PyNode := walkAux [root]

/-- `FORBIDDEN_MODULES` of `static_check.py`. -/
def FORBIDDEN_MODULES : List String :=
  ["os", "sys", "subprocess", "socket", "shutil", "pathlib", "fcntl",
   "signal", "resource", "ctypes", "multiprocessing", "threading",
   "asyncio", "selectors", "urllib", "http", "inspect", "importlib"]

/-- `FORBIDDEN_FUNCTIONS` of `static_check.py`. -/
def FORBIDDEN_FUNCTIONS : List String :=
  ["eval", "exec", "__import__", "compile", "open", "input", "globals",
   "locals", "vars", "getattr", "setattr", "delattr", "dir"]

/-- `FORBIDDEN_ATTRS` of `static_check.py`. -/
def FORBIDDEN_ATTRS : List String :=
  ["__class__", "__dict__", "__bases__", "__mro__", "__subclasses__"]

/-- Python `name.split(".")[0]`: the prefix of a dotted name before its
first dot (the whole name when it has no dot), computed on the character
list. -/
def topModule (nm : String) : String :=
  String.mk (nm.data.takeWhile (fun c => !(c = Char.ofNat 46)))

/-- The violations one loop iteration of `ast_static_check` appends for the
node at hand: the four sequential `isinstance` checks of lines 48-76,
including the `node.module and …` truthiness guard of the `ImportFrom`
branch (an empty-string module is falsy in Python). -/
def nodeViolations : PyNode → List String
  | .Import names =>
    names.filterMap (fun nm =>
      if FORBIDDEN_MODULES.contains (topModule nm) then some ("import " ++ nm)
      else none)
  | .ImportFrom m =>
    match m with
    | some md =>
      if md != "" && FORBIDDEN_MODULES.contains (topModule md) then
        ["from " ++ md ++ " import ..."]
      else []
    | none => []
  | .Call f _ =>
    match f with
    | .Name id => if FORBIDDEN_FUNCTIONS.contains id then [id] else []
    | .Attribute _ attr => if FORBIDDEN_FUNCTIONS.contains attr then [attr] else []
    | _ => []
  | .Attribute _ attr =>
    if FORBIDDEN_ATTRS.contains attr then ["attribute " ++ attr] else []
  | .With _ => ["with statement"]
  | _ => []

/-- `ast_static_check` of `static_check.py`: `["syntax error"]` when the
parse failed, otherwise the violations accumulated over one `ast.walk` of
the tree. -/
def ast_static_check : Option PyNode → List String
  | none => ["syntax error"]
  | some tree => (walk tree).flatMap nodeViolations

/-- Modelled from the spec: the per-node rule of §4.1 — an import of either
statement form whose top-level module name is in the forbidden-module set,
a call whose callee is a bare name or a trailing attribute in the
forbidden-call set, an attribute access whose attribute name is in the
forbidden-attribute set, and every `with` construct.  Unlike
`nodeViolations` it has no separate truthiness guard on the `from` module:
the spec only asks for membership of the top-level name. -/
def specNodeRule : PyNode → List String
  | .Import names =>
    names.filterMap (fun nm =>
      if FORBIDDEN_MODULES.contains (topModule nm) then some ("import " ++ nm)
      else none)
  | .ImportFrom (some md) =>
    if FORBIDDEN_MODULES.contains (topModule md) then
      ["from " ++ md ++ " import ..."]
    else []
  | .ImportFrom none => []
  | .Call (.Name id) _ => if FORBIDDEN_FUNCTIONS.contains id then [id] else []
  | .Call (.Attribute _ attr) _ =>
    if FORBIDDEN_FUNCTIONS.contains attr then [attr] else []
  | .Call _ _ => []
  | .Attribute _ attr =>
    if FORBIDDEN_ATTRS.contains attr then ["attribute " ++ attr] else []
  | .With _ => ["with statement"]
  | _ => []

theorem nodeViolations_eq_specNodeRule (n : PyNode) :
    nodeViolations n = specNodeRule n := by
  cases n with
  | ImportFrom m =>
    cases m with
    | none => rfl
    | some md =>
      by_cases hmd : md = ""
      · subst hmd
        have hnm : topModule "" ∉ FORBIDDEN_MODULES := by decide
        simp [nodeViolations, specNodeRule, hnm]
      · have : (md != "") = true := by simpa using hmd
        simp [nodeViolations, specNodeRule, this]
  | Call f args => cases f <;> rfl
  | _ => rfl

/-! ## The POST /run-code endpoint (`server.py` lines 188-236) -/

/-- What the endpoint hands back to the framework: either an explicit JSON
response (the 403 screener rejection, or the plain dictionary return that
the framework serves with status 200), or a raised `HTTPException`
carrying a status code and a detail message. -/
inductive HttpResponse where
  | jsonContent (status : Nat) (body : ResultDict)
  | httpException (status : Nat) (detail : String)
deriving DecidableEq, Repr

/-- The outcome mapping of `run_code_executor` after `pool.execute_code`
returned (lines 217-230): an `error` key routes 408 and 503 to their fixed
detail strings and any other status to the result's error message;
otherwise the success dictionary is returned (status 200) with the
`.get(…, default)` fallbacks of the source. -/
def runCodeMap (result : ResultDict) : HttpResponse :=
  match result.error with
  | some msg =>
    let status := result.status_code.getD 500
    if status = 408 then .httpException 408 "execution timed out"
    else if status = 503 then .httpException 503 "no available workers"
    else .httpException status msg
  | none =>
    .jsonContent 200
      ⟨some (result.stdout.getD ""), some (result.stderr.getD ""),
       some (result.return_code.getD 0), none, none, none, none⟩

/-- `run_code_executor` of `server.py`: the `STATIC_CHECK` flag gates
`ast_static_check`; a non-empty violation list short-circuits to the 403
JSON response; otherwise the `pool.execute_code` result (here the
`execResult` oracle, produced by `executeCode`) is mapped by `runCodeMap`.
The screener runs on `parsedCode`, the `ast.parse` outcome of the request
body's `code` field. -/
def run_code_executor (staticCheckFlag : Bool) (parsedCode : Option PyNode)
    (execResult : ResultDict) : HttpResponse :=
  if staticCheckFlag then
    match ast_static_check parsedCode with
    | [] => runCodeMap execResult
    | issue :: more =>
      .jsonContent 403
        ⟨none, none, none, some "forbidden constructs found",
         some (issue :: more), none, none⟩
  else runCodeMap execResult

/-! ## The queue consumer (`kafka_consumer.py` lines 162-215)

The consumer loop body is modelled per delivered message.  Whether the
message decrypts and parses is the `InboundMessage` oracle; the value
`_execute_code` returns for it is the `execResult` oracle (that call
catches its own exceptions and always returns a dictionary).  The Python
variable `request_id` is function-scoped, so a binding made while handling
an earlier message is still visible — via `"request_id" in locals()` — when
a later message fails to decrypt; the `boundRid` argument carries that
scope state (`none` = never bound so far, `some rid` = currently bound to
`rid`, itself `none` when the request had no `request_id` key). -/

/-- The request dictionary `{request_id, code, user_id, timeout}` parsed
from a decrypted queue message; absent keys are `none`. -/
structure RequestDict where
  request_id : Option String
  code : Option String
  user_id : Option String
  timeout : Option Nat
deriving DecidableEq, Repr

/-- Decryption/parse outcome of one delivered message. -/
inductive InboundMessage where
  | ok (req : RequestDict)
  | undecodable
deriving DecidableEq, Repr

/-- A message published to the response topic: partition key and payload. -/
structure PublishedMessage where
  key : Option String
  value : ResultDict
deriving DecidableEq, Repr

/-- Python truthiness of the `request_id` variable (`None` and the empty
string are falsy). -/
def pyTruthy : Option String → Bool
  | none => false
  | some s => s != ""

/-- Line 175 of `kafka_consumer.py`:
`timeout = request.get("timeout", self.default_timeout)` — the deadline
passed on to `pool.execute_code` for a queue request. -/
def queueTimeoutUsed (req : RequestDict) (defaultTimeout : Nat) : Nat :=
  req.timeout.getD defaultTimeout

/-- Line 215 of `server.py`: the HTTP endpoint always passes the
server-configured `TIMEOUT` to `pool.execute_code` (the request body has
no timeout field to forward). -/
def httpTimeoutUsed (serverTimeout : Nat) : Nat := serverTimeout

/-- One iteration of the consumer loop for one delivered message
(lines 169-210): on a decodable message, bind `request_id`, attach it to
the execution result and publish it keyed by the id when that is truthy;
on a decrypt/parse failure, fall to the `except` handler, which publishes
an error response if and only if a *previously bound* `request_id` is
truthy.  Returns the new scope state and the list of messages published
for this delivery. -/
def processOneMessage (boundRid : Option (Option String))
    (execResult : ResultDict) (errText : String) (msg : InboundMessage) :
    Option (Option String) × List PublishedMessage :=
  match msg with
  | .ok req =>
    let rid := req.request_id
    let result := { execResult with request_id := some rid }
    let key := if pyTruthy rid then rid else none
    (some rid, [⟨key, result⟩])
  | .undecodable =>
    match boundRid with
    | some rid =>
      if pyTruthy rid then
        (boundRid, [⟨rid, { errorResult errText 500 with request_id := some rid }⟩])
      else (boundRid, [])
    | none => (boundRid, [])

/-- The consumer loop over a sequence of deliveries, threading the
function-scoped `request_id` binding; each delivery comes with its oracle
execution result and exception text. -/
def consumeLoop (boundRid : Option (Option String)) :
    List (InboundMessage × ResultDict × String) → List PublishedMessage
  | [] => []
  | (msg, er, etext) :: rest =>
    let step := processOneMessage boundRid er etext msg
    step.2 ++ consumeLoop step.1 rest

/-! ## Per-direction encryption (`kafka_consumer.py` lines 29-69 and
`kafka_client.py` lines 32-73)

`_derive_fernet_key` is `base64.urlsafe_b64encode(hashlib.sha256(key
.encode()).digest())`; SHA-256 (FIPS 180-4, what `hashlib.sha256`
computes) and the url-safe base64 alphabet are implemented concretely
below over byte lists.  The Fernet cipher itself and `json.dumps` /
`json.loads` are third-party primitives; they enter the theorems as
parameters constrained by their documented contracts (decrypting with the
encrypting key returns the plaintext; loading a dump returns the value). -/

/-- Byte sequences (each entry `< 256`). -/
abbrev ByteSeq : Type := List Nat

/-- UTF-8 encoding of a Python string (`str.encode()`). -/
def strBytes (s : String) : ByteSeq := s.toUTF8.toList.map (fun b => b.toNat)

/-- Right rotation of a 32-bit word. -/
def rotr32 (x n : Nat) : Nat :=
  ((x >>> n) ||| (x <<< (32 - n))) % 4294967296

/-- The eight working variables of SHA-256. -/
structure Sha8 where
  a : Nat
  b : Nat
  c : Nat
  d : Nat
  e : Nat
  f : Nat
  g : Nat
  h : Nat
deriving DecidableEq, Repr

/-- SHA-256 initial hash value. -/
def sha256Init : Sha8 :=
  ⟨1779033703, 3144134277, 1013904242, 2773480762,
   1359893119, 2600822924, 528734635, 1541459225⟩

/-- SHA-256 round constants. -/
def sha256K : List Nat :=
  [1116352408, 1899447441, 3049323471, 3921009573, 961987163, 1508970993,
   2453635748, 2870763221, 3624381080, 310598401, 607225278, 1426881987,
   1925078388, 2162078206, 2614888103, 3248222580, 3835390401, 4022224774,
   264347078, 604807628, 770255983, 1249150122, 1555081692, 1996064986,
   2554220882, 2821834349, 2952996808, 3210313671, 3336571891, 3584528711,
   113926993, 338241895, 666307205, 773529912, 1294757372, 1396182291,
   1695183700, 1986661051, 2177026350, 2456956037, 2730485921, 2820302411,
   3259730800, 3345764771, 3516065817, 3600352804, 4094571909, 275423344,
   430227734, 506948616, 659060556, 883997877, 958139571, 1322822218,
   1537002063, 1747873779, 1955562222, 2024104815, 2227730452, 2361852424,
   2428436474, 2756734187, 3204031479, 3329325298]

/-- Big-endian byte expansion of a value into `n` bytes. -/
def beBytes (n v : Nat) : ByteSeq :=
  (List.range n).map (fun i => v >>> (8 * (n - 1 - i)) % 256)

/-- SHA-256 message padding: append `0x80`, zeros up to 56 mod 64, and the
64-bit big-endian bit length. -/
def sha256Pad (msg : ByteSeq) : ByteSeq :=
  msg ++ [128] ++ List.replicate ((119 - msg.length % 64) % 64) 0 ++
    beBytes 8 (msg.length * 8)

/-- Split a byte sequence into 64-byte blocks. -/
def chunks64 : ByteSeq → List ByteSeq
  | [] => []
  | b :: rest => ((b :: rest).take 64) :: chunks64 ((b :: rest).drop 64)
termination_by l => l.length
decreasing_by simp; omega

/-- Pack bytes into big-endian 32-bit words. -/
def packWords : ByteSeq → List Nat
  | a :: b :: c :: d :: rest => (((a * 256 + b) * 256 + c) * 256 + d) :: packWords rest
  | _ => []

/-- Message-schedule extension: grow the 16 block words to 64. -/
def msgSchedule (w0 : List Nat) : List Nat :=
  (List.range 48).foldl
    (fun w _ =>
      let n := w.length
      let x := w.getD (n - 15) 0
      let y := w.getD (n - 2) 0
      let s0 := rotr32 x 7 ^^^ rotr32 x 18 ^^^ (x >>> 3)
      let s1 := rotr32 y 17 ^^^ rotr32 y 19 ^^^ (y >>> 10)
      w ++ [(w.getD (n - 16) 0 + s0 + w.getD (n - 7) 0 + s1) % 4294967296])
    w0

/-- One SHA-256 round. -/
def sha256Round (w : List Nat) (st : Sha8) (i : Nat) : Sha8 :=
  let s1 := rotr32 st.e 6 ^^^ rotr32 st.e 11 ^^^ rotr32 st.e 25
  let chV := (st.e &&& st.f) ^^^ ((st.e ^^^ 4294967295) &&& st.g)
  let t1 := (st.h + s1 + chV + sha256K.getD i 0 + w.getD i 0) % 4294967296
  let s0 := rotr32 st.a 2 ^^^ rotr32 st.a 13 ^^^ rotr32 st.a 22
  let majV := (st.a &&& st.b) ^^^ (st.a &&& st.c) ^^^ (st.b &&& st.c)
  let t2 := (s0 + majV) % 4294967296
  ⟨(t1 + t2) % 4294967296, st.a, st.b, st.c,
   (st.d + t1) % 4294967296, st.e, st.f, st.g⟩

/-- Compress one 64-byte block into the running hash. -/
def sha256Block (st : Sha8) (block : ByteSeq) : Sha8 :=
  let w := msgSchedule (packWords block)
  let r := (List.range 64).foldl (sha256Round w) st
  ⟨(st.a + r.a) % 4294967296, (st.b + r.b) % 4294967296,
   (st.c + r.c) % 4294967296, (st.d + r.d) % 4294967296,
   (st.e + r.e) % 4294967296, (st.f + r.f) % 4294967296,
   (st.g + r.g) % 4294967296, (st.h + r.h) % 4294967296⟩

/-- `hashlib.sha256(msg).digest()`: the 32-byte SHA-256 digest. -/
def sha256Digest (msg : ByteSeq) : ByteSeq :=
  let fin := (chunks64 (sha256Pad msg)).foldl sha256Block sha256Init
  beBytes 4 fin.a ++ beBytes 4 fin.b ++ beBytes 4 fin.c ++ beBytes 4 fin.d ++
    beBytes 4 fin.e ++ beBytes 4 fin.f ++ beBytes 4 fin.g ++ beBytes 4 fin.h

theorem sha256Digest_length (msg : ByteSeq) : (sha256Digest msg).length = 32 := by
  simp [sha256Digest, beBytes]

/-- The byte of the url-safe base64 alphabet at index `n`
(`A-Z`, `a-z`, `0-9`, `-`, `_`). -/
def b64Char (n : Nat) : Nat :=
  if n < 26 then 65 + n
  else if n < 52 then 97 + (n - 26)
  else if n < 62 then 48 + (n - 52)
  else if n = 62 then 45
  else 95

/-- `base64.urlsafe_b64encode` over bytes (61 is the pad byte `=`). -/
def b64UrlEncode : ByteSeq → ByteSeq
  | [] => []
  | [a] => [b64Char (a >>> 2), b64Char ((a % 4) <<< 4), 61, 61]
  | [a, b] =>
    [b64Char (a >>> 2), b64Char (((a % 4) <<< 4) ||| (b >>> 4)),
     b64Char ((b % 16) <<< 2), 61]
  | a :: b :: c :: rest =>
    b64Char (a >>> 2) :: b64Char (((a % 4) <<< 4) ||| (b >>> 4)) ::
      b64Char (((b % 16) <<< 2) ||| (c >>> 6)) :: b64Char (c % 64) ::
      b64UrlEncode rest

/-- `_derive_fernet_key` (identical in `kafka_consumer.py` and
`kafka_client.py`): url-safe base64 of the SHA-256 digest of the encoded
key string. -/
def derive_fernet_key (keyString : String) : ByteSeq :=
  b64UrlEncode (sha256Digest (strBytes keyString))

/-- A JSON value, the payload type of the queue messages. -/
inductive JValue where
  | jnull
  | jbool (b : Bool)
  | jnum (n : Int)
  | jstr (s : String)
  | jarr (xs : List JValue)
  | jobj (fields : List (String × JValue))

/-- Top-level field lookup in a JSON object (`d["request_id"]`). -/
def JValue.getField : JValue → String → Option JValue
  | .jobj fields, k => fields.lookup k
  | _, _ => none

/-- The Fernet cipher over an abstract wire type: `Fernet(key).encrypt` /
`Fernet(key).decrypt` with decryption failure as `none`.  Third-party
primitive; theorems assume only its documented round-trip contract. -/
structure FernetModel (W : Type) where
  encrypt : ByteSeq → W → W
  decrypt : ByteSeq → W → Option W

/-- `json.dumps` / `json.loads` over the same abstract wire type.
Third-party primitive; theorems assume only the dump/load round trip. -/
structure JsonCodec (W : Type) where
  dumps : JValue → W
  loads : W → Option JValue

/-- The process environment (`os.getenv`). -/
def EnvMap : Type := String → Option String

/-- `os.getenv(name, default)`. -/
def getenvD (env : EnvMap) (name deflt : String) : String :=
  (env name).getD deflt

namespace RunnerKafka

/-- `CHAT_KAFKA_ENCRYPTION_KEY` as read in `kafka_consumer.py` line 29. -/
def chatKeyString (env : EnvMap) : String :=
  getenvD env "CHAT_KAFKA_ENCRYPTION_KEY" "chat-kafka-encryption-key-32b!"

/-- `RUNNER_KAFKA_ENCRYPTION_KEY` as read in `kafka_consumer.py` line 30. -/
def runnerKeyString (env : EnvMap) : String :=
  getenvD env "RUNNER_KAFKA_ENCRYPTION_KEY" "runner-kafka-encryption-key-32!"

/-- `decrypt_request` of `kafka_consumer.py`: Fernet-decrypt with the
chat-direction key, then parse the JSON. -/
def decrypt_request {W : Type} (F : FernetModel W) (J : JsonCodec W)
    (env : EnvMap) (cipherText : W) : Option JValue :=
  (F.decrypt (derive_fernet_key (chatKeyString env)) cipherText).bind J.loads

/-- `encrypt_response` of `kafka_consumer.py`: JSON-dump, then
Fernet-encrypt with the runner-direction key. -/
def encrypt_response {W : Type} (F : FernetModel W) (J : JsonCodec W)
    (env : EnvMap) (payload : JValue) : W :=
  F.encrypt (derive_fernet_key (runnerKeyString env)) (J.dumps payload)

end RunnerKafka

namespace ChatKafka

/-- `CHAT_KAFKA_ENCRYPTION_KEY` as read in `kafka_client.py` line 32. -/
def chatKeyString (env : EnvMap) : String :=
  getenvD env "CHAT_KAFKA_ENCRYPTION_KEY" "chat-kafka-encryption-key-32b!"

/-- `RUNNER_KAFKA_ENCRYPTION_KEY` as read in `kafka_client.py` line 33. -/
def runnerKeyString (env : EnvMap) : String :=
  getenvD env "RUNNER_KAFKA_ENCRYPTION_KEY" "runner-kafka-encryption-key-32!"

/-- `encrypt_request` of `kafka_client.py`: JSON-dump, then Fernet-encrypt
with the chat-direction key. -/
def encrypt_request {W : Type} (F : FernetModel W) (J : JsonCodec W)
    (env : EnvMap) (payload : JValue) : W :=
  F.encrypt (derive_fernet_key (chatKeyString env)) (J.dumps payload)

/-- `decrypt_response` of `kafka_client.py`: Fernet-decrypt with the
runner-direction key, then parse the JSON. -/
def decrypt_response {W : Type} (F : FernetModel W) (J : JsonCodec W)
    (env : EnvMap) (cipherText : W) : Option JValue :=
  (F.decrypt (derive_fernet_key (runnerKeyString env)) cipherText).bind J.loads

end ChatKafka

/-! ## Sample values used by witnesses and counterexamples -/

/-- A pool with one idle worker, fresh counters and an empty log. -/
def samplePool : PoolState :=
  { workers := [⟨"runner-worker-0", 9000, "", false, 0, none, none⟩],
    execution_history := [], max_history := 100,
    stats := ⟨0, 0, 0, 0⟩, events := [] }

/-- Two idle worker slots. -/
def sampleIdleWorkers : List WorkerContainer :=
  [⟨"runner-worker-0", 9000, "", false, 0, none, none⟩,
   ⟨"runner-worker-1", 9001, "", false, 0, none, none⟩]

/-- A well-formed queue request. -/
def sampleReq : RequestDict :=
  ⟨some "abc", some "print(1)", some "user-1", some 5⟩

/-- A queue request carrying a timeout far above the server default. -/
def oversizedReq : RequestDict :=
  ⟨some "r-1", some "print(1)", some "user-1", some 9999⟩

/-- The execution result oracle for a successful run. -/
def okExecResult : ResultDict :=
  ⟨some "1\n", some "", some 0, none, none, none, none⟩

/-! ## Claim theorems -/

/-- C10: `get_stats` is total on every pool state: when `total_executions`
is 0 the derived fields `avg_exec_time_ms`, `avg_lines` and `success_rate`
are all 0 with no division performed, and when `total_executions` is
positive they equal `total_exec_time_ms/total_executions`,
`total_lines/total_executions` and `success_count/total_executions*100`
respectively. -/
theorem get_stats_total_on_every_state (s : Stats) :
    (s.total_executions = 0 →
      (get_stats s).avg_exec_time_ms = 0 ∧ (get_stats s).avg_lines = 0 ∧
        (get_stats s).success_rate = 0) ∧
    (0 < s.total_executions →
      (get_stats s).avg_exec_time_ms =
        (s.total_exec_time_ms : ℚ) / (s.total_executions : ℚ) ∧
      (get_stats s).avg_lines = (s.total_lines : ℚ) / (s.total_executions : ℚ) ∧
      (get_stats s).success_rate =
        (s.success_count : ℚ) / (s.total_executions : ℚ) * 100) := by
  constructor <;> intro h <;> simp [get_stats, h]

/-- Witness for C10 at the concrete counters (2 executions, 10 ms total,
4 lines, 1 success): the success rate evaluates to 50. -/
theorem get_stats_total_on_every_state_witness :
    0 < (2 : Nat) ∧ (get_stats ⟨2, 10, 4, 1⟩).success_rate = 50 := by
  refine ⟨by norm_num, ?_⟩
  have h := (get_stats_total_on_every_state ⟨2, 10, 4, 1⟩).2 (by norm_num)
  rw [h.2.2]
  norm_num

/-- C7 counterexample: a queue request with `timeout = 9999` against the
server-configured default 10 runs with deadline 9999 — the deadline used is
not bounded above by the configured maximum. -/
theorem queue_deadline_unbounded_counterexample :
    queueTimeoutUsed oversizedReq 10 = 9999 ∧
    ¬ queueTimeoutUsed oversizedReq 10 ≤ 10 := by
  constructor <;> decide

/-- C7 amended: the HTTP path always runs with the server-configured
default deadline (the request body carries no timeout), while the queue
path uses the caller's `timeout` verbatim when present — with the server
default only as a fallback, never as an upper bound. -/
theorem deadline_selection (req : RequestDict) (d t v : Nat) :
    (req.timeout = some v → queueTimeoutUsed req d = v) ∧
    (req.timeout = none → queueTimeoutUsed req d = d) ∧
    httpTimeoutUsed t = t := by
  refine ⟨fun h => ?_, fun h => ?_, rfl⟩ <;> simp [queueTimeoutUsed, h]

/-- Witness for C7 (amended) at the concrete oversized request: its
timeout 9999 is the deadline used, and a request without the key falls
back to the default 10. -/
theorem deadline_selection_witness :
    queueTimeoutUsed oversizedReq 10 = 9999 ∧
    queueTimeoutUsed ⟨some "r-2", some "print(1)", none, none⟩ 10 = 10 := by
  constructor
  · exact (deadline_selection oversizedReq 10 10 9999).1 (by decide)
  · exact (deadline_selection ⟨some "r-2", some "print(1)", none, none⟩ 10 10 0).2.1 (by decide)

/-- C2: a consumed message that decrypts and parses to a request with a
well-formed `request_id` makes the consumer publish exactly one response —
keyed by and carrying that `request_id` — whatever the scope state left by
earlier deliveries and whatever the execution result; and in the loop, the
delivery contributes exactly that one message before processing
continues. -/
theorem queue_exactly_one_response (bound : Option (Option String))
    (er : ResultDict) (etext : String) (req : RequestDict) (r : String)
    (hid : req.request_id = some r) (hwf : r ≠ "") :
    (processOneMessage bound er etext (.ok req)).2 =
      [⟨some r, { er with request_id := some (some r) }⟩] ∧
    (∀ rest, consumeLoop bound ((.ok req, er, etext) :: rest) =
      ⟨some r, { er with request_id := some (some r) }⟩ ::
        consumeLoop (some (some r)) rest) := by
  have htr : pyTruthy (some r) = true := by simp [pyTruthy, hwf]
  constructor
  · simp [processOneMessage, hid, htr]
  · intro rest
    simp [consumeLoop, processOneMessage, hid, htr]

/-- Witness for C2 at the concrete request with id `"abc"`, processed with
no prior scope state and a successful execution result. -/
theorem queue_exactly_one_response_witness :
    (processOneMessage none okExecResult "" (.ok sampleReq)).2 =
      [⟨some "abc", { okExecResult with request_id := some (some "abc") }⟩] :=
  (queue_exactly_one_response none okExecResult "" sampleReq "abc"
    (by decide) (by decide)).1

/-- C3 (code bug): after a successfully handled message bound
`request_id = "abc"`, a following message that fails to decrypt does NOT
get dropped silently — the `except` handler sees the stale function-scoped
binding through `"request_id" in locals()` and publishes an error response
keyed by the previous message's id.  A failed decrypt with no earlier
successful delivery is indeed dropped without a response. -/
theorem queue_drop_publishes_stale_response :
    consumeLoop none [(.undecodable, emptyResult, "decrypt failed")] = [] ∧
    consumeLoop none
      [(.ok sampleReq, okExecResult, ""),
       (.undecodable, emptyResult, "decrypt failed")] =
      [⟨some "abc", { okExecResult with request_id := some (some "abc") }⟩,
       ⟨some "abc",
        { errorResult "decrypt failed" 500 with request_id := some (some "abc") }⟩] := by
  constructor <;> decide

/-- The four pool outcomes of §4.6 and the result dictionary
`pool.execute_code` hands the endpoint for each: the worker's success body,
the timed-out / no-capacity / infrastructure error dictionaries built in
`container_pool.py` (lines 392-393, 433, 437-441). -/
inductive PoolOutcome where
  | success (out err : String) (rc : Int)
  | timedOut
  | noCapacity
  | infrastructure (msg : String)

/-- The result dictionary `execute_code` returns for each outcome. -/
def outcomeResult : PoolOutcome → ResultDict
  | .success out err rc => ⟨some out, some err, some rc, none, none, none, none⟩
  | .timedOut => errorResult "execution timed out" 408
  | .noCapacity => errorResult "no available workers" 503
  | .infrastructure msg => errorResult msg 500

/-- Modelled from the spec: the response §4.6 prescribes for a request —
403 with `{error, details}` when the flag is on and the screener list is
non-empty; otherwise 200 `{stdout, stderr, return_code}` on success, 408
`"execution timed out"`, 503 `"no available workers"`, or 500 with the
message on infrastructure failure. -/
def specRunCodeResponse (flag : Bool) (issues : List String)
    (oc : PoolOutcome) : HttpResponse :=
  if flag ∧ issues ≠ [] then
    .jsonContent 403
      ⟨none, none, none, some "forbidden constructs found", some issues,
       none, none⟩
  else
    match oc with
    | .success out err rc =>
      .jsonContent 200 ⟨some out, some err, some rc, none, none, none, none⟩
    | .timedOut => .httpException 408 "execution timed out"
    | .noCapacity => .httpException 503 "no available workers"
    | .infrastructure msg => .httpException 500 msg

/-- C5: for every `POST /run-code` request, `run_code_executor` returns
exactly the response §4.6 prescribes: 403 with
`{error: "forbidden constructs found", details: [...]}` when the
static-check flag is on and the screener returns a non-empty list, and
otherwise maps the pool outcome to 200 `{stdout, stderr, return_code}`,
408 `"execution timed out"`, 503 `"no available workers"`, or 500 with the
error message. -/
theorem run_code_outcome_mapping (flag : Bool) (parsed : Option PyNode)
    (oc : PoolOutcome) :
    run_code_executor flag parsed (outcomeResult oc) =
      specRunCodeResponse flag (ast_static_check parsed) oc := by
  cases flag with
  | false =>
    cases oc <;>
      simp [run_code_executor, specRunCodeResponse, outcomeResult, runCodeMap,
        errorResult]
  | true =>
    cases hsc : ast_static_check parsed with
    | nil =>
      cases oc <;>
        simp [run_code_executor, specRunCodeResponse, outcomeResult,
          runCodeMap, errorResult, hsc]
    | cons issue more =>
      simp [run_code_executor, specRunCodeResponse, hsc]

/-- C4 counterexample: with one idle worker, a non-timeout transport
failure (`connection reset`) observed 100 s after the start of a 10 s
execution — the deadline is long exceeded — is classified 500, not the
408 the claim requires for an exceeded deadline. -/
theorem transport_failure_counterexample :
    (executeCode samplePool "print(1)" 10 "anonymous" "e1" 0 100
        (.networkExc "connection reset")).2 =
      errorResult "connection reset" 500 ∧
    100 - 0 > 10 ∧
    (executeCode samplePool "print(1)" 10 "anonymous" "e1" 0 100
        (.networkExc "connection reset")).2.status_code ≠ some 408 := by
  refine ⟨by decide, by decide, by decide⟩

/-- C4 amended: the classification goes by exception type, not by elapsed
time — `httpx.TimeoutException` always yields the Timeout outcome
(status 408), and since the HTTP client budget is `timeout + 5` seconds
such an exception only fires past the deadline; every other transport
failure yields the Infrastructure outcome (status 500) even when the
deadline was exceeded. -/
theorem transport_failure_classification (p : PoolState) (code : String)
    (timeout : Nat) (uid eid : String) (t1 t2 : Nat) (msg : String)
    (i : Nat) (aw : WorkerContainer) (ws1 : List WorkerContainer)
    (hacq : acquireList p.workers t1 = some (i, aw, ws1)) :
    (executeCode p code timeout uid eid t1 t2 .timeoutExc).2 =
      errorResult "execution timed out" 408 ∧
    (t1 + timeout + 5 ≤ t2 → t2 - t1 > timeout) ∧
    (executeCode p code timeout uid eid t1 t2 (.networkExc msg)).2 =
      errorResult msg 500 := by
  refine ⟨?_, by omega, ?_⟩ <;>
    simp [executeCode, hacq, normalizeOutcome]

/-- Witness for C4 (amended) at the one-idle-worker pool: the client
timeout at second 16 of a 10 s execution is 408, the network failure is
500. -/
theorem transport_failure_classification_witness :
    (executeCode samplePool "print(1)" 10 "anonymous" "e1" 0 16
        .timeoutExc).2 = errorResult "execution timed out" 408 ∧
    (executeCode samplePool "print(1)" 10 "anonymous" "e1" 0 16
        (.networkExc "boom")).2 = errorResult "boom" 500 := by
  have h := transport_failure_classification samplePool "print(1)" 10
    "anonymous" "e1" 0 16 "boom" 0
    (markBusy ⟨"runner-worker-0", 9000, "", false, 0, none, none⟩ 0)
    [markBusy ⟨"runner-worker-0", 9000, "", false, 0, none, none⟩ 0]
    (by decide)
  exact ⟨h.1, h.2.2⟩

/-- The parse tree of `import os` followed by `open("/etc/passwd")` (an
expression statement wrapping the call, whose argument is a string
literal). -/
def osOpenProgram : PyNode :=
  .Module [.Import ["os"], .Other [.Call (.Name "open") [.Other []]]]

/-- C6: `ast_static_check` is a pure function of the parse outcome matching
the reference algorithm of §4.1 — `["syntax error"]` exactly when parsing
fails, and otherwise one violation per matching node of the single tree
walk, in walk order (imports of either form with a forbidden top-level
module, calls whose callee is a bare name or trailing attribute in the
forbidden-call set, forbidden attribute accesses, and every
with-statement); on the `import os; open(...)` program the result is
`["import os", "open"]`, at least two entries. -/
theorem screener_matches_reference (t : PyNode) :
    ast_static_check none = ["syntax error"] ∧
    ast_static_check (some t) = (walk t).flatMap specNodeRule ∧
    ast_static_check (some osOpenProgram) = ["import os", "open"] ∧
    2 ≤ (ast_static_check (some osOpenProgram)).length := by
  have hwalk : ∀ u : PyNode,
      ast_static_check (some u) = (walk u).flatMap specNodeRule := by
    intro u
    simp only [ast_static_check]
    exact List.flatMap_congr (fun n _ => nodeViolations_eq_specNodeRule n)
  have hconc : ast_static_check (some osOpenProgram) = ["import os", "open"] := by
    simp [ast_static_check, osOpenProgram, walk, walkAux, PyNode.children,
      nodeViolations]
    decide
  exact ⟨rfl, hwalk t, hconc, by rw [hconc]; decide⟩

/-- The identity Fernet instance over `JValue` wires, used to witness the
round-trip theorem at a concrete payload. -/
def idFernet : FernetModel JValue :=
  ⟨fun _ m => m, fun _ c => some c⟩

/-- The identity JSON codec over `JValue` wires. -/
def idCodec : JsonCodec JValue :=
  ⟨fun d => d, fun w => some w⟩

/-- An environment with no variables set: both services fall back to the
default key strings. -/
def emptyEnv : EnvMap := fun _ => none

/-- A sample queue payload carrying a `request_id`. -/
def samplePayload : JValue :=
  .jobj [("request_id", .jstr "abc"), ("code", .jstr "print(1)")]

/-- C9: under the documented Fernet and JSON round-trip contracts, a
request encrypted by the chat client with the request-direction key
decrypts on the runner with that same key to the exact original object
(in particular its `request_id` field), and a response encrypted by the
runner with the response-direction key decrypts on the chat side likewise —
both sides read the same key strings from the environment (with identical
defaults) and derive each direction's symmetric key by hashing the key
string to a 32-byte digest. -/
theorem kafka_payload_roundtrip {W : Type} (F : FernetModel W)
    (J : JsonCodec W) (env : EnvMap)
    (hF : ∀ k m, F.decrypt k (F.encrypt k m) = some m)
    (hJ : ∀ d, J.loads (J.dumps d) = some d) :
    (∀ d : JValue,
      RunnerKafka.decrypt_request F J env (ChatKafka.encrypt_request F J env d) =
        some d) ∧
    (∀ d : JValue,
      ChatKafka.decrypt_response F J env (RunnerKafka.encrypt_response F J env d) =
        some d) ∧
    (∀ d : JValue,
      (RunnerKafka.decrypt_request F J env
          (ChatKafka.encrypt_request F J env d)).map
        (fun r => r.getField "request_id") = some (d.getField "request_id")) ∧
    RunnerKafka.chatKeyString env = ChatKafka.chatKeyString env ∧
    RunnerKafka.runnerKeyString env = ChatKafka.runnerKeyString env ∧
    (∀ s : String, (sha256Digest (strBytes s)).length = 32) := by
  have hreq : ∀ d : JValue,
      RunnerKafka.decrypt_request F J env (ChatKafka.encrypt_request F J env d) =
        some d := by
    intro d
    simp [RunnerKafka.decrypt_request, ChatKafka.encrypt_request,
      RunnerKafka.chatKeyString, ChatKafka.chatKeyString, hF, hJ]
  refine ⟨hreq, ?_, ?_, rfl, rfl, fun s => sha256Digest_length _⟩
  · intro d
    simp [ChatKafka.decrypt_response, RunnerKafka.encrypt_response,
      RunnerKafka.runnerKeyString, ChatKafka.runnerKeyString, hF, hJ]
  · intro d
    rw [hreq d]
    simp

/-- Witness for C9: the identity cipher and codec satisfy both round-trip
contracts, and the theorem instantiates to the concrete sample payload;
the derived key of the default chat key string is 32 bytes before base64
encoding. -/
theorem kafka_payload_roundtrip_witness :
    RunnerKafka.decrypt_request idFernet idCodec emptyEnv
        (ChatKafka.encrypt_request idFernet idCodec emptyEnv samplePayload) =
      some samplePayload ∧
    (sha256Digest (strBytes "chat-kafka-encryption-key-32b!")).length = 32 := by
  have h := kafka_payload_roundtrip idFernet idCodec emptyEnv
    (fun k m => rfl) (fun d => rfl)
  exact ⟨h.1 samplePayload, h.2.2.2.2.2 "chat-kafka-encryption-key-32b!"⟩

/-- C1: in every state reachable under any interleaving of acquire,
release and execute_code steps, the number of workers with `busy = true`
equals the number of executions currently between their acquire and their
release, those executions hold pairwise distinct slots, and `acquire` only
ever returns a worker whose busy flag was false when it was picked. -/
theorem pool_busy_invariant (s : SysState) (h : ReachableState s) :
    busyCount s.workers = s.inFlight.length ∧ s.inFlight.Nodup ∧
    (∀ (ws : List WorkerContainer) (now i : Nat) (aw : WorkerContainer)
        (ws2 : List WorkerContainer),
      acquireList ws now = some (i, aw, ws2) →
      ∃ w0, ws[i]? = some w0 ∧ w0.busy = false) := by
  have hinv := poolInv_reachable s h
  refine ⟨hinv.1, hinv.2.1, ?_⟩
  intro ws now i aw ws2 hacq
  obtain ⟨⟨w0, hg, hb, _⟩, _⟩ := acquireList_spec ws now i aw ws2 hacq
  exact ⟨w0, hg, hb⟩

/-- The slot list after one successful acquire on the two idle sample
slots at time 5. -/
def sampleBusyWorkers : List WorkerContainer :=
  [markBusy ⟨"runner-worker-0", 9000, "", false, 0, none, none⟩ 5,
   ⟨"runner-worker-1", 9001, "", false, 0, none, none⟩]

/-- Witness for C1 at the reachable state after one acquire step from two
idle slots: one busy slot, one in-flight execution. -/
theorem pool_busy_invariant_witness :
    busyCount sampleBusyWorkers = [0].length ∧ ([0] : List Nat).Nodup ∧
    (∀ (ws : List WorkerContainer) (now i : Nat) (aw : WorkerContainer)
        (ws2 : List WorkerContainer),
      acquireList ws now = some (i, aw, ws2) →
      ∃ w0, ws[i]? = some w0 ∧ w0.busy = false) :=
  pool_busy_invariant ⟨sampleBusyWorkers, [0]⟩
    (ReachableState.step ⟨sampleIdleWorkers, []⟩ ⟨sampleBusyWorkers, [0]⟩
      (ReachableState.init sampleIdleWorkers (by decide))
      (PoolStep.acquireOk ⟨sampleIdleWorkers, []⟩ 5 0
        (markBusy ⟨"runner-worker-0", 9000, "", false, 0, none, none⟩ 5)
        sampleBusyWorkers (by decide)))

/-- The `ExecutionInfo` record as built at the start of `execute_code`
(lines 397-403). -/
def execStartRec (eid uid code wname : String) (t1 : Nat) : ExecutionInfo :=
  ⟨eid, uid, code, wname, t1, none, none, false, none⟩

/-- The execution record after finalization (lines 444-448): end time,
duration in ms, success flag. -/
def execFinalRec (eid uid code wname : String) (t1 t2 : Nat) (succ : Bool) :
    ExecutionInfo :=
  ⟨eid, uid, code, wname, t1, some t2, some (t2 - t1), succ, none⟩

/-- A worker with its `current_execution` attached. -/
def withCurrent (w : WorkerContainer) (e : ExecutionInfo) : WorkerContainer :=
  { w with current_execution := some e }

/-- C8: whenever `execute_code` acquires a worker, then before it returns —
on every outcome, timeout and infrastructure failure included — it
finalizes the execution record (end time, duration, success flag), appends
it to the recent-history buffer (whose last entry it becomes), emits
`execution_start`, a `pool_status`, `execution_end` and a final
`pool_status` in that order, and releases the worker: busy cleared and
current execution detached. -/
theorem execute_code_finalizes (p : PoolState) (code : String) (timeout : Nat)
    (uid eid : String) (t1 t2 : Nat) (net : WorkerInteraction)
    (i : Nat) (aw : WorkerContainer) (ws1 : List WorkerContainer)
    (hacq : acquireList p.workers t1 = some (i, aw, ws1))
    (hmax : 0 < p.max_history) :
    ∃ e : ExecutionInfo,
      (executeCode p code timeout uid eid t1 t2 net).1.execution_history.getLast?
        = some e ∧
      e.end_time = some t2 ∧ e.duration_ms = some (t2 - t1) ∧
      e.success = (normalizeOutcome net).1 ∧
      (∃ st1 st2 : List WorkerStatusEntry,
        (executeCode p code timeout uid eid t1 t2 net).1.events =
          p.events ++
            [PoolEvent.execution_start eid uid code aw.name,
             PoolEvent.pool_status st1,
             PoolEvent.execution_end eid (t2 - t1) (normalizeOutcome net).1,
             PoolEvent.pool_status st2]) ∧
      (∃ w2 : WorkerContainer,
        (executeCode p code timeout uid eid t1 t2 net).1.workers[i]? = some w2 ∧
        w2.busy = false ∧ w2.current_execution = none) ∧
      (∃ st : List WorkerStatusEntry,
        (executeCode p code timeout uid eid t1 t2 net).1.events.getLast? =
          some (PoolEvent.pool_status st)) := by
  obtain ⟨⟨w0, hg0, hb0, hmk⟩, hg1, hb1, hoth, hcnt, hlen⟩ :=
    acquireList_spec p.workers t1 i aw ws1 hacq
  have hilt : i < ws1.length := (List.getElem?_eq_some.1 hg1).1
  have hilt2 : i <
      (ws1.set i (withCurrent aw (execStartRec eid uid code aw.name t1))).length := by
    simpa using hilt
  simp only [executeCode, hacq]
  refine ⟨execFinalRec eid uid code aw.name t1 t2 (normalizeOutcome net).1,
    ?_, rfl, rfl, rfl, ?_, ?_, ?_⟩
  · simp only [emitPoolStatus]
    by_cases hcap : p.execution_history.length + 1 > p.max_history
    · have hne : 1 ≤ p.execution_history.length := by omega
      rw [if_pos (by simpa using hcap),
        List.drop_append_of_le_length hne]
      exact List.getLast?_concat _
    · rw [if_neg (by simpa using hcap)]
      exact List.getLast?_concat _
  · refine ⟨(ws1.set i (withCurrent aw (execStartRec eid uid code aw.name t1))).map
        workerStatusEntry,
      (releaseList
        ((ws1.set i (withCurrent aw (execStartRec eid uid code aw.name t1))).set i
          (withCurrent aw
            (execFinalRec eid uid code aw.name t1 t2 (normalizeOutcome net).1)))
        i).map workerStatusEntry, ?_⟩
    simp only [emitPoolStatus, List.append_assoc, List.cons_append,
      List.nil_append]
    rfl
  · have hset2 : ((ws1.set i
        (withCurrent aw (execStartRec eid uid code aw.name t1))).set i
        (withCurrent aw
          (execFinalRec eid uid code aw.name t1 t2 (normalizeOutcome net).1)))[i]? =
      some (withCurrent aw
        (execFinalRec eid uid code aw.name t1 t2 (normalizeOutcome net).1)) :=
      List.getElem?_set_self hilt2
    refine ⟨clearWorker (withCurrent aw
      (execFinalRec eid uid code aw.name t1 t2 (normalizeOutcome net).1)),
      ?_, rfl, rfl⟩
    simp only [emitPoolStatus]
    exact releaseList_get_self _ i _ hset2
  · refine ⟨(releaseList
      ((ws1.set i (withCurrent aw (execStartRec eid uid code aw.name t1))).set i
        (withCurrent aw
          (execFinalRec eid uid code aw.name t1 t2 (normalizeOutcome net).1)))
      i).map workerStatusEntry, ?_⟩
    simp only [emitPoolStatus]
    exact List.getLast?_concat _

/-- Witness for C8 at the one-idle-worker pool, a timed-out execution
from second 0 to second 16. -/
theorem execute_code_finalizes_witness :
    ∃ e : ExecutionInfo,
      (executeCode samplePool "print(1)" 10 "user-1" "e1" 0 16
          .timeoutExc).1.execution_history.getLast? = some e ∧
      e.end_time = some 16 ∧ e.duration_ms = some (16 - 0) ∧
      e.success = (normalizeOutcome .timeoutExc).1 ∧
      (∃ st1 st2 : List WorkerStatusEntry,
        (executeCode samplePool "print(1)" 10 "user-1" "e1" 0 16
            .timeoutExc).1.events =
          samplePool.events ++
            [PoolEvent.execution_start "e1" "user-1" "print(1)"
              (markBusy ⟨"runner-worker-0", 9000, "", false, 0, none, none⟩ 0).name,
             PoolEvent.pool_status st1,
             PoolEvent.execution_end "e1" (16 - 0) (normalizeOutcome .timeoutExc).1,
             PoolEvent.pool_status st2]) ∧
      (∃ w2 : WorkerContainer,
        (executeCode samplePool "print(1)" 10 "user-1" "e1" 0 16
            .timeoutExc).1.workers[0]? = some w2 ∧
        w2.busy = false ∧ w2.current_execution = none) ∧
      (∃ st : List WorkerStatusEntry,
        (executeCode samplePool "print(1)" 10 "user-1" "e1" 0 16
            .timeoutExc).1.events.getLast? =
          some (PoolEvent.pool_status st)) :=
  execute_code_finalizes samplePool "print(1)" 10 "user-1" "e1" 0 16
    .timeoutExc 0
    (markBusy ⟨"runner-worker-0", 9000, "", false, 0, none, none⟩ 0)
    [markBusy ⟨"runner-worker-0", 9000, "", false, 0, none, none⟩ 0]
    (by decide) (by decide)
